import Mathlib

/-!
Verification of the moog_spriteworld plugin modules:
`moog/action_spaces/select_move.py`, `moog/tasks/l2_reward.py`,
`moog/env_wrappers/gym_wrapper.py`.

Numeric values are modelled by exact rationals `ℚ` (and `ℝ` where the
source takes a square root); the IEEE infinity used by `l2_reward.py`
is modelled by an explicit `FloatVal` type on which `inf - 1 = inf`
and `inf < 0` is false, exactly as for `np.inf`.
-/

set_option autoImplicit false

namespace Moog

/-- A 2-dimensional point / vector, component-wise rationals. -/
abbrev Vec2 : Type := ℚ × ℚ

/-- Component-wise addition of 2-vectors (numpy broadcast `+`). -/
def vadd (a b : Vec2) : Vec2 := (a.1 + b.1, a.2 + b.2)

/-- Component-wise subtraction of 2-vectors (numpy broadcast `-`). -/
def vsub (a b : Vec2) : Vec2 := (a.1 - b.1, a.2 - b.2)

/-- Scaling of a 2-vector by a scalar (numpy broadcast `*` and `/`). -/
def vscale (c : ℚ) (a : Vec2) : Vec2 := (c * a.1, c * a.2)

/-- Modelled from the spec: a sprite of the external sprite library.
The Action Translator only reads `position`, `mass` and the containment
predicate `contains_point`, and mutates `velocity`; the geometry of
`contains_point` is owned by the external collaborator, so it is kept as
an abstract boolean predicate on points. -/
structure Sprite where
  position : Vec2
  velocity : Vec2
  mass : ℚ
  contains_point : Vec2 → Bool

/-- An action of the Select-Move action space: a length-4 vector in
`[0,1]^4`, split as (first click, second click) = (selection position,
motion target), mirroring `noised_action[:2]` / `noised_action[2:]`. -/
abbrev Action : Type := Vec2 × Vec2

/-- Component-wise addition of two 4-vectors (numpy `action + noise`). -/
def actionAdd (a n : Action) : Action := (vadd a.1 n.1, vadd a.2 n.2)

/-- Environment state: an ordered mapping from layer name to the ordered
list of sprites of that layer (`state[action_layer]`). -/
abbrev SpriteState : Type := List (String × List Sprite)

/-- Python `state[layer]`: the sprite list bound to `layer` (first
binding with that key; `[]` for a missing key, which in Python would be
a `KeyError` — the claims only exercise present keys). -/
def lookupLayer : SpriteState → String → List Sprite
  | [], _ => []
  | kv :: rest, layer => if kv.1 = layer then kv.2 else lookupLayer rest layer

/-- Replace the sprite list bound to `layer` (the in-place mutation of
that dict entry's list); a missing key leaves the state unchanged. -/
def setLayer : SpriteState → String → List Sprite → SpriteState
  | [], _, _ => []
  | kv :: rest, layer, sprites =>
    if kv.1 = layer then (kv.1, sprites) :: rest
    else kv :: setLayer rest layer sprites

/-- The Python value passed as `noise_scale`: absent (`None`), a scalar,
a Python list, or a numpy array. -/
inductive NoiseScale where
  | scalar (q : ℚ)
  | pylist (qs : List ℚ)
  | nparray (qs : List ℚ)
deriving DecidableEq

/-- Python truthiness of `self._noise_scale`, as tested by
`if self._noise_scale:`:
`None` is falsy, a scalar float is truthy iff nonzero, a Python list is
truthy iff nonempty, and a numpy array of size other than 1 raises
`ValueError` (ambiguous truth value). -/
def noiseTruthy : Option NoiseScale → Except String Bool
  | none => .ok false
  | some (.scalar q) => .ok (q ≠ 0)
  | some (.pylist qs) => .ok (qs ≠ [])
  | some (.nparray qs) =>
    if h : qs.length = 1 then .ok (qs.get ⟨0, by omega⟩ ≠ 0)
    else .error "ValueError: truth value of an array is ambiguous"

/-- Configuration of `SelectMove` (constructor arguments, after the
normalisation of `action_layers` to a tuple). -/
structure SelectMoveConfig where
  action_layers : List String
  scale : ℚ
  motion_cost : ℚ
  noise_scale : Option NoiseScale
  instant_move : Bool

/-- `SelectMove.get_motion`: `delta_pos = action - sprite.position`
(here `action` is the last two components of the noised action). -/
def get_motion (action : Vec2) (sprite : Sprite) : Vec2 :=
  vsub action sprite.position

/-- `SelectMove.apply_noise_to_action`: if the configured noise scale is
truthy, draw Gaussian noise and return `action + noise`; otherwise
return the action unchanged.  The random sample is abstracted into the
explicit argument `noise`; no clamping of any kind is applied. -/
def apply_noise_to_action (cfg : SelectMoveConfig) (action : Action)
    (noise : Action) : Except String Action := do
  let truthy ← noiseTruthy cfg.noise_scale
  if truthy then
    return actionAdd action noise
  else
    return action

/-- `SelectMove.get_sprite_from_position`: iterate `sprites[::-1]` and
return the first sprite containing `position`, else `None`. -/
def get_sprite_from_position (position : Vec2) (sprites : List Sprite) :
    Option Sprite :=
  sprites.reverse.find? (fun s => s.contains_point position)

/-- Index form of `get_sprite_from_position`: the index (into the
forward list) of the sprite the reverse scan returns, i.e. the last
index whose sprite contains the position.  Python works with object
identity; the functional model works with the occurrence index. -/
def clickedIdx (position : Vec2) : List Sprite → Option ℕ
  | [] => none
  | s :: rest =>
    match clickedIdx position rest with
    | some i => some (i + 1)
    | none => if s.contains_point position then some 0 else none

/-- The flattening loop of `SelectMove.step` over a list of layer
names: for each layer in order, append that layer's sprites in state
order. -/
def flattenLayers (state : SpriteState) : List String → List Sprite
  | [] => []
  | l :: ls => lookupLayer state l ++ flattenLayers state ls

/-- The flattened candidate pool of `SelectMove.step`, over the
configured action layers. -/
def flattenSprites (cfg : SelectMoveConfig) (state : SpriteState) :
    List Sprite :=
  flattenLayers state cfg.action_layers

/-- Update the `i`-th element of a list by `f`, leaving the rest. -/
def updateNth {α : Type} (f : α → α) : ℕ → List α → List α
  | _, [] => []
  | 0, s :: rest => f s :: rest
  | i + 1, s :: rest => s :: updateNth f i rest

/-- Apply `f` to the sprite at global index `i` of the flattened
candidate pool, written back into the layered state (the Python mutation
of the clicked sprite object aliased inside `state`). -/
def updateAtGlobal (state : SpriteState) (layers : List String) (i : ℕ)
    (f : Sprite → Sprite) : SpriteState :=
  match layers with
  | [] => state
  | l :: ls =>
    let n := (lookupLayer state l).length
    if i < n then setLayer state l (updateNth f i (lookupLayer state l))
    else updateAtGlobal state ls (i - n) f

/-- The velocity written to the clicked sprite:
`(motion / sprite.mass) * self._scale` with
`motion = get_motion(noised_action[2:], clicked_sprite)`; added to the
old velocity unless `instant_move`. -/
def newVelocity (cfg : SelectMoveConfig) (target : Vec2) (sp : Sprite) :
    Vec2 :=
  let contribution := vscale (cfg.scale / sp.mass) (get_motion target sp)
  if cfg.instant_move then contribution else vadd sp.velocity contribution

/-- `SelectMove.step`: noise the action, take the first two components
as the selection position, flatten the configured layers into the
candidate pool, reverse-scan for the clicked sprite, and update its
velocity; with no clicked sprite the state is untouched. -/
def SelectMove.step (cfg : SelectMoveConfig) (state : SpriteState)
    (action : Action) (noise : Action) : Except String SpriteState := do
  let noised ← apply_noise_to_action cfg action noise
  let position := noised.1
  let sprites := flattenSprites cfg state
  match clickedIdx position sprites with
  | none => return state
  | some i =>
    return updateAtGlobal state cfg.action_layers i
      (fun sp => { sp with velocity := newVelocity cfg noised.2 sp })

/-- Projection of a state to its velocities only (layer names, per-layer
lengths and each sprite's velocity). -/
def stateVelocities (state : SpriteState) : List (String × List Vec2) :=
  state.map (fun kv => (kv.1, kv.2.map (fun s => s.velocity)))

/-- Projection of a state to everything `step` never writes: layer
names, per-layer lengths, and each sprite's position and mass. -/
def stateSkeleton (state : SpriteState) : List (String × List (Vec2 × ℚ)) :=
  state.map (fun kv => (kv.1, kv.2.map (fun s => (s.position, s.mass))))

/-- All sprites of the state, in state order (all layers, not only the
configured action layers). -/
def allSprites (state : SpriteState) : List Sprite :=
  state.foldr (fun kv acc => kv.2 ++ acc) []

/-- The velocities of all sprites of the state, in state order. -/
def allVelocities (state : SpriteState) : List Vec2 :=
  (allSprites state).map (fun s => s.velocity)

/-! ### `moog/tasks/l2_reward.py` -/

/-- An IEEE-float-like value as used for the reward rule's counter: the
value `np.inf` or a finite rational.  For the two operations the code
performs, `inf - 1 = inf` and `inf < 0` is false, exactly as for IEEE
infinity. -/
inductive FloatVal where
  | inf : FloatVal
  | fin : ℚ → FloatVal
deriving DecidableEq

/-- `x - 1` on the counter (`self._steps_until_reset -= 1`):
`np.inf - 1 == np.inf`. -/
def FloatVal.sub1 : FloatVal → FloatVal
  | .inf => .inf
  | .fin q => .fin (q - 1)

/-- `x < 0` on the counter (`self._steps_until_reset < 0`):
`np.inf < 0` is false. -/
def FloatVal.ltZero : FloatVal → Bool
  | .inf => false
  | .fin q => decide (q < 0)

/-- Configuration of `L2Reward` relevant to the counter dynamics:
`reset_steps_after_contact` (default `np.inf`). -/
structure L2Config where
  reset_steps_after_contact : FloatVal
  terminate_distance : ℚ
  raw_reward_multiplier : ℚ

/-- The mutable attributes of `L2Reward` set by `reset` and updated by
`reward`. -/
structure L2TaskState where
  steps_until_reset : FloatVal
  has_made_contact : Bool
deriving DecidableEq

/-- `L2Reward.reset`: `self._steps_until_reset = np.inf`,
`self._has_made_contact = False`. -/
def L2Reward.reset : L2TaskState :=
  { steps_until_reset := .inf, has_made_contact := false }

/-- `L2Reward._single_sprite_reward`:
`raw_reward_multiplier * (terminate_distance - ||position - goal||_2)`;
the square root forces the value into `ℝ`. -/
noncomputable def single_sprite_reward (cfg : L2Config)
    (position goal : Vec2) : ℝ :=
  let goal_distance :=
    Real.sqrt (((position.1 : ℝ) - (goal.1 : ℝ)) ^ 2 +
      ((position.2 : ℝ) - (goal.2 : ℝ)) ^ 2)
  (cfg.raw_reward_multiplier : ℝ) * ((cfg.terminate_distance : ℝ) - goal_distance)

/-- The state-and-flag part of `L2Reward.reward`: on overlap record the
contact and, if the counter is still infinite, start it at
`reset_steps_after_contact`; then decrement the counter unconditionally;
`should_reset` is whether the counter went below zero.  Returns the new
task state and `should_reset`. -/
def L2Reward.rewardTransition (cfg : L2Config) (st : L2TaskState)
    (overlaps : Bool) : L2TaskState × Bool :=
  let st1 :=
    if overlaps then
      { steps_until_reset :=
          if st.steps_until_reset = .inf then cfg.reset_steps_after_contact
          else st.steps_until_reset,
        has_made_contact := true }
    else st
  let counter := st1.steps_until_reset.sub1
  let should_reset := counter.ltZero
  ({ st1 with steps_until_reset := counter }, should_reset)

/-- `L2Reward.reward`: the shaped reward between `sprites_0[0]` and
`sprites_1[0]` (positions `pos0`, `pos1`; their `overlaps_sprite` test,
owned by the external sprite library, is passed as the boolean
`overlaps`), zeroed by `reward * (1 - int(should_reset))`; returns
`(reward, should_reset)` and the updated task state. -/
noncomputable def L2Reward.reward (cfg : L2Config) (st : L2TaskState)
    (pos0 pos1 : Vec2) (overlaps : Bool) : (ℝ × Bool) × L2TaskState :=
  let raw := single_sprite_reward cfg pos0 pos1
  let next := L2Reward.rewardTransition cfg st overlaps
  let should_reset := next.2
  ((raw * (1 - if should_reset then (1 : ℝ) else 0), should_reset), next.1)

/-- Iterated counter dynamics: the list of `should_reset` outputs over a
trace of per-call overlap booleans, starting from task state `st`. -/
def L2Reward.runFrom (cfg : L2Config) (st : L2TaskState) :
    List Bool → List Bool
  | [] => []
  | ov :: rest =>
    let next := L2Reward.rewardTransition cfg st ov
    next.2 :: L2Reward.runFrom cfg next.1 rest

/-- The task state after processing a trace of overlap booleans. -/
def L2Reward.stateAfter (cfg : L2Config) (st : L2TaskState) :
    List Bool → L2TaskState
  | [] => st
  | ov :: rest =>
    L2Reward.stateAfter cfg (L2Reward.rewardTransition cfg st ov).1 rest

/-- The `should_reset` outputs of a run that starts from `reset`. -/
def L2Reward.run (cfg : L2Config) (trace : List Bool) : List Bool :=
  L2Reward.runFrom cfg L2Reward.reset trace

/-! ### `moog/env_wrappers/gym_wrapper.py` -/

/-- The numpy dtypes the wrapper distinguishes. -/
inductive DType where
  | bool : DType
  | float32 : DType
  | float64 : DType
  | uint8 : DType
deriving DecidableEq

/-- A numpy array as the wrapper sees it: a dtype and flat contents
(boolean entries encoded 0/1; `astype` preserves these values). -/
structure NDArray where
  dtype : DType
  data : List ℚ
deriving DecidableEq

/-- `v.astype(np.float32)` applied when `v.dtype == bool`. -/
def astypeFloat32 (a : NDArray) : NDArray := { a with dtype := .float32 }

/-- `obs.astype(np.float)`: cast to the default float (float64). -/
def astypeFloat (a : NDArray) : NDArray := { a with dtype := .float64 }

/-- An observation dictionary: insertion-ordered keys with array
values. -/
abbrev ObsDict : Type := List (String × NDArray)

/-- The per-entry coercion of `GymWrapper._process_obs`:
`np.asarray` (identity on arrays) then boolean arrays cast to
float32. -/
def processEntry (a : NDArray) : NDArray :=
  if a.dtype = .bool then astypeFloat32 a else a

/-- Result of `_process_obs`: either the single collapsed value or the
dict itself. -/
inductive ProcObs where
  | single (a : NDArray)
  | dict (d : ObsDict)
deriving DecidableEq

/-- `"image" in obs.keys()`. -/
def hasImageKey (obs : ObsDict) : Bool :=
  obs.any (fun kv => kv.1 = "image")

/-- `GymWrapper._process_obs`: coerce every entry, then collapse to the
value at the first key when the dict has exactly one key, or exactly
two keys one of which is `"image"`; otherwise return the dict. -/
def GymWrapper.processObs (obs : ObsDict) : ProcObs :=
  let coerced : ObsDict := obs.map (fun kv => (kv.1, processEntry kv.2))
  if coerced.length = 1 ∨ (coerced.length = 2 ∧ hasImageKey coerced) then
    match coerced with
    | [] => .dict []
    | kv :: _ => .single kv.2
  else .dict coerced

/-- A Python reward value as delivered in a `dm_env` time step: `None`,
a float, or an int. -/
inductive RewardVal where
  | none : RewardVal
  | float (q : ℚ) : RewardVal
  | int (n : ℤ) : RewardVal
deriving DecidableEq

/-- Python `time_step.reward or 0`: a falsy reward (`None`, `0.0`, `0`)
becomes the integer literal `0`; any truthy reward passes through. -/
def rewardOr0 : RewardVal → RewardVal
  | .none => .int 0
  | .float q => if q = 0 then .int 0 else .float q
  | .int n => if n = 0 then .int 0 else .int n

/-- A `dm_env` time step as consumed by the wrapper. -/
structure TimeStep where
  observation : ObsDict
  reward : RewardVal
  isLast : Bool
  discount : ℚ

/-- `GymWrapper.step`: process the observation, default the reward to
the integer `0` when falsy, take `done` from `time_step.last()`, and —
when the observation dict has no `"image"` key — cast the processed
observation with `obs.astype(np.float)`, which raises an
`AttributeError` when the processed observation is still a dict. -/
def GymWrapper.step (ts : TimeStep) :
    Except String (ProcObs × RewardVal × Bool × ℚ) :=
  let obs := GymWrapper.processObs ts.observation
  let reward := rewardOr0 ts.reward
  let done := ts.isLast
  if hasImageKey ts.observation then
    .ok (obs, reward, done, ts.discount)
  else
    match obs with
    | .single a => .ok (.single (astypeFloat a), reward, done, ts.discount)
    | .dict _ => .error "AttributeError: dict object has no attribute astype"

/-- `GymWrapper.reset`: reset the wrapped environment and return the
processed observation. -/
def GymWrapper.reset (ts : TimeStep) : ProcObs :=
  GymWrapper.processObs ts.observation

/-! ### Concrete example data (used by the example theorems below) -/

/-- The spec's example sprite: position `(0.5, 0.5)`, mass 1, at rest;
its shape contains exactly its own position. -/
def exampleSprite : Sprite :=
  { position := ((1 : ℚ)/2, (1 : ℚ)/2), velocity := (0, 0), mass := 1,
    contains_point := fun q => decide (q = ((1 : ℚ)/2, (1 : ℚ)/2)) }

/-- A second sprite whose shape contains every point (overlapping the
first), with a distinct position, velocity and mass. -/
def exampleSpriteBig : Sprite :=
  { position := ((1 : ℚ)/4, (1 : ℚ)/4), velocity := (3, 4), mass := 2,
    contains_point := fun _ => true }

/-- The spec's example configuration with `instant_move = True`:
`layers = ["agent"]`, `scale = 1`, no noise. -/
def exampleCfgInstant : SelectMoveConfig :=
  { action_layers := ["agent"], scale := 1, motion_cost := 0,
    noise_scale := none, instant_move := true }

/-- The default-configuration variant with `instant_move = False`. -/
def exampleCfgAccum : SelectMoveConfig :=
  { action_layers := ["agent"], scale := 1, motion_cost := 0,
    noise_scale := none, instant_move := false }

/-- A configuration whose noise scale is a numpy array of 4 stddevs, as
the constructor docstring describes for the vector case. -/
def exampleCfgArrayNoise : SelectMoveConfig :=
  { action_layers := ["agent"], scale := 1, motion_cost := 0,
    noise_scale := some (.nparray [(1 : ℚ)/10, 1/10, 1/10, 1/10]),
    instant_move := false }

/-- A configuration whose noise scale is the nonzero scalar 1/10. -/
def exampleCfgScalarNoise : SelectMoveConfig :=
  { action_layers := ["agent"], scale := 1, motion_cost := 0,
    noise_scale := some (.scalar ((1 : ℚ)/10)), instant_move := false }

/-- The spec's example state: one agent layer holding `exampleSprite`. -/
def exampleState : SpriteState := [("agent", [exampleSprite])]

/-- A state whose agent layer holds two overlapping sprites. -/
def exampleStateOverlap : SpriteState :=
  [("agent", [exampleSprite, exampleSpriteBig])]

/-- `exampleState` after one accumulating click with target `(1, 1)`:
the sprite's velocity became `(1/2, 1/2)`. -/
def exampleStateMoved : SpriteState :=
  [("agent", [{ exampleSprite with velocity := ((1 : ℚ)/2, (1 : ℚ)/2) }])]

/-- A reward configuration that resets one step after first contact. -/
def exampleL2Cfg : L2Config :=
  { reset_steps_after_contact := .fin 1, terminate_distance := 1/20,
    raw_reward_multiplier := 5 }

/-- A reward configuration that resets on the first contact call. -/
def exampleL2CfgZero : L2Config :=
  { reset_steps_after_contact := .fin 0, terminate_distance := 1/20,
    raw_reward_multiplier := 5 }

/-- The default reward configuration: never reset. -/
def exampleL2CfgInf : L2Config :=
  { reset_steps_after_contact := .inf, terminate_distance := 1/20,
    raw_reward_multiplier := 5 }

/-- A float32 numpy array holding the value 1. -/
def exampleArr : NDArray := { dtype := .float32, data := [1] }

/-- A boolean numpy array holding the value 1 (True). -/
def exampleBoolArr : NDArray := { dtype := .bool, data := [1] }

/-- A time step with two non-image observation keys and no reward. -/
def exampleTimeStepTwoKeys : TimeStep :=
  { observation := [("a", exampleArr), ("b", exampleArr)],
    reward := .none, isLast := false, discount := 1 }

/-- A time step with one boolean observation key and a zero float
reward. -/
def exampleTimeStepSingle : TimeStep :=
  { observation := [("success", exampleBoolArr)],
    reward := .float 0, isLast := false, discount := 1 }

/-! ### Lemmas about the Select-Move action space -/

theorem apply_noise_to_action_none {cfg : SelectMoveConfig}
    (h : cfg.noise_scale = none) (a n : Action) :
    apply_noise_to_action cfg a n = .ok a := by
  simp [apply_noise_to_action, noiseTruthy, h, Bind.bind, Except.bind,
    Pure.pure, Except.pure]

theorem step_eq_of_noised {cfg : SelectMoveConfig} {s : SpriteState}
    {a n na : Action} (h : apply_noise_to_action cfg a n = .ok na) :
    SelectMove.step cfg s a n =
      (match clickedIdx na.1 (flattenSprites cfg s) with
      | none => .ok s
      | some i => .ok (updateAtGlobal s cfg.action_layers i
          (fun sp => { sp with velocity := newVelocity cfg na.2 sp }))) := by
  simp only [SelectMove.step, Bind.bind, h, Except.bind]
  rfl

theorem clickedIdx_lt {pos : Vec2} :
    ∀ {l : List Sprite} {i : ℕ}, clickedIdx pos l = some i → i < l.length := by
  intro l
  induction l with
  | nil => intro i h; simp [clickedIdx] at h
  | cons s rest ih =>
    intro i h
    unfold clickedIdx at h
    cases hr : clickedIdx pos rest with
    | some j =>
      rw [hr] at h
      simp at h
      subst h
      have := ih hr
      simp
      omega
    | none =>
      rw [hr] at h
      by_cases hc : s.contains_point pos = true
      · simp [hc] at h
        subst h
        simp
      · simp [hc] at h

theorem clickedIdx_contains {pos : Vec2} :
    ∀ {l : List Sprite} {i : ℕ}, clickedIdx pos l = some i →
      ∃ sp, l.get? i = some sp ∧ sp.contains_point pos = true := by
  intro l
  induction l with
  | nil => intro i h; simp [clickedIdx] at h
  | cons s rest ih =>
    intro i h
    unfold clickedIdx at h
    cases hr : clickedIdx pos rest with
    | some j =>
      rw [hr] at h
      simp at h
      subst h
      obtain ⟨sp, hget, hcp⟩ := ih hr
      exact ⟨sp, by simpa using hget, hcp⟩
    | none =>
      rw [hr] at h
      by_cases hc : s.contains_point pos = true
      · simp [hc] at h
        subst h
        exact ⟨s, rfl, hc⟩
      · simp [hc] at h

theorem clickedIdx_none_forall {pos : Vec2} :
    ∀ {l : List Sprite}, clickedIdx pos l = none →
      ∀ sp ∈ l, sp.contains_point pos = false := by
  intro l
  induction l with
  | nil => intro _ sp h; simp at h
  | cons s rest ih =>
    intro h sp hmem
    unfold clickedIdx at h
    cases hr : clickedIdx pos rest with
    | some k => rw [hr] at h; simp at h
    | none =>
      rw [hr] at h
      by_cases hc : s.contains_point pos = true
      · simp [hc] at h
      · rcases List.mem_cons.mp hmem with h1 | h1
        · subst h1; simpa using hc
        · exact ih hr sp h1

theorem clickedIdx_last {pos : Vec2} :
    ∀ {l : List Sprite} {i : ℕ}, clickedIdx pos l = some i →
      ∀ j sp, i < j → l.get? j = some sp → sp.contains_point pos = false := by
  intro l
  induction l with
  | nil => intro i h; simp [clickedIdx] at h
  | cons s rest ih =>
    intro i h j sp hij hget
    unfold clickedIdx at h
    cases hr : clickedIdx pos rest with
    | some k =>
      rw [hr] at h
      simp at h
      subst h
      match j, hij with
      | (j' + 1), hij =>
        exact ih hr j' sp (by omega) (by simpa using hget)
    | none =>
      rw [hr] at h
      by_cases hc : s.contains_point pos = true
      · simp [hc] at h
        subst h
        match j, hij with
        | (j' + 1), _ =>
          have hmem : sp ∈ rest := List.get?_mem (by simpa using hget)
          exact clickedIdx_none_forall hr sp hmem
      · simp [hc] at h

theorem get_sprite_from_position_eq_clickedIdx (pos : Vec2) :
    ∀ l : List Sprite,
      get_sprite_from_position pos l = (clickedIdx pos l).bind l.get? := by
  intro l
  induction l with
  | nil => rfl
  | cons s rest ih =>
    unfold get_sprite_from_position clickedIdx
    rw [List.reverse_cons, List.find?_append]
    cases hr : clickedIdx pos rest with
    | some i =>
      have : get_sprite_from_position pos rest = rest.get? i := by
        rw [ih, hr]; rfl
      unfold get_sprite_from_position at this
      rw [this]
      have hlt := clickedIdx_lt hr
      have : ∃ sp, rest.get? i = some sp := by
        rw [List.get?_eq_get hlt]; exact ⟨_, rfl⟩
      obtain ⟨sp, hsp⟩ := this
      rw [List.get?_eq_getElem?] at hsp
      simp [hsp]
    | none =>
      have : get_sprite_from_position pos rest = none := by
        rw [ih, hr]; rfl
      unfold get_sprite_from_position at this
      rw [this]
      by_cases hc : s.contains_point pos = true <;>
        simp [hc, Option.orElse, List.find?]

theorem updateNth_length {α : Type} (f : α → α) :
    ∀ (i : ℕ) (l : List α), (updateNth f i l).length = l.length := by
  intro i l
  induction l generalizing i with
  | nil => cases i <;> rfl
  | cons x rest ih =>
    cases i with
    | zero => rfl
    | succ j => simp [updateNth, ih]

theorem updateNth_get?_self {α : Type} (f : α → α) :
    ∀ (i : ℕ) (l : List α), (updateNth f i l).get? i = (l.get? i).map f := by
  intro i l
  induction l generalizing i with
  | nil => cases i <;> rfl
  | cons x rest ih =>
    cases i with
    | zero => rfl
    | succ j => simpa [updateNth] using ih j

theorem updateNth_map {α β : Type} (f : α → α) (g : α → β)
    (hg : ∀ x, g (f x) = g x) :
    ∀ (i : ℕ) (l : List α), (updateNth f i l).map g = l.map g := by
  intro i l
  induction l generalizing i with
  | nil => cases i <;> rfl
  | cons x rest ih =>
    cases i with
    | zero => simp [updateNth, hg]
    | succ j => simp [updateNth, ih]

theorem updateNth_decomp {α : Type} (f : α → α) :
    ∀ (i : ℕ) (l : List α), updateNth f i l = l ∨
      ∃ A x B, l = A ++ x :: B ∧ updateNth f i l = A ++ f x :: B := by
  intro i l
  induction l generalizing i with
  | nil => cases i <;> exact Or.inl rfl
  | cons x rest ih =>
    cases i with
    | zero => exact Or.inr ⟨[], x, rest, rfl, rfl⟩
    | succ j =>
      rcases ih j with h | ⟨A, y, B, h1, h2⟩
      · exact Or.inl (by simp [updateNth, h])
      · exact Or.inr ⟨x :: A, y, B, by simp [h1], by simp [updateNth, h2]⟩

theorem lookupLayer_setLayer_self :
    ∀ (s : SpriteState) (l : String) (xs : List Sprite),
      lookupLayer s l ≠ [] → lookupLayer (setLayer s l xs) l = xs := by
  intro s l xs h
  induction s with
  | nil => simp [lookupLayer] at h
  | cons kv rest ih =>
    by_cases hk : kv.1 = l
    · simp [setLayer, lookupLayer, hk]
    · simp only [setLayer, lookupLayer, hk, if_neg, not_false_iff] at h ⊢
      exact ih h

theorem lookupLayer_setLayer_ne :
    ∀ (s : SpriteState) (l l0 : String) (xs : List Sprite), l0 ≠ l →
      lookupLayer (setLayer s l xs) l0 = lookupLayer s l0 := by
  intro s l l0 xs hne
  have hne2 : ¬(l = l0) := fun hh => hne hh.symm
  induction s with
  | nil => rfl
  | cons kv rest ih =>
    by_cases hk : kv.1 = l
    · simp [setLayer, lookupLayer, hk, hne2]
    · by_cases hk0 : kv.1 = l0 <;>
        simp [setLayer, lookupLayer, hk, hk0, hne, ih]

theorem lookupLayer_setLayer_length :
    ∀ (s : SpriteState) (l l0 : String) (xs : List Sprite),
      xs.length = (lookupLayer s l).length →
      (lookupLayer (setLayer s l xs) l0).length = (lookupLayer s l0).length := by
  intro s l l0 xs hlen
  by_cases h0 : l0 = l
  · subst h0
    induction s with
    | nil => rfl
    | cons kv rest ih =>
      by_cases hk : kv.1 = l0
      · simp only [lookupLayer, hk, if_pos] at hlen
        simp [setLayer, lookupLayer, hk, hlen]
      · simp only [lookupLayer, hk, if_neg, not_false_iff] at hlen
        simp only [setLayer, lookupLayer, hk, if_neg, not_false_iff]
        exact ih hlen
  · rw [lookupLayer_setLayer_ne s l l0 xs h0]

theorem lookupLayer_updateAtGlobal_length
    (f : Sprite → Sprite) :
    ∀ (layers : List String) (s : SpriteState) (i : ℕ) (l0 : String),
      (lookupLayer (updateAtGlobal s layers i f) l0).length =
        (lookupLayer s l0).length := by
  intro layers
  induction layers with
  | nil => intro s i l0; rfl
  | cons l ls ih =>
    intro s i l0
    unfold updateAtGlobal
    by_cases hi : i < (lookupLayer s l).length
    · simp only [hi, if_pos]
      exact lookupLayer_setLayer_length s l l0 _ (updateNth_length f i _)
    · simp only [hi, if_neg, not_false_iff]
      exact ih s (i - (lookupLayer s l).length) l0

theorem stateSkeleton_cons (kv : String × List Sprite) (rest : SpriteState) :
    stateSkeleton (kv :: rest) =
      (kv.1, kv.2.map (fun s => (s.position, s.mass))) :: stateSkeleton rest :=
  rfl

theorem allSprites_cons (kv : String × List Sprite) (rest : SpriteState) :
    allSprites (kv :: rest) = kv.2 ++ allSprites rest :=
  rfl

theorem stateSkeleton_setLayer_updateNth {f : Sprite → Sprite}
    (hf : ∀ sp, (f sp).position = sp.position ∧ (f sp).mass = sp.mass) :
    ∀ (s : SpriteState) (l : String) (i : ℕ),
      stateSkeleton (setLayer s l (updateNth f i (lookupLayer s l))) =
        stateSkeleton s := by
  intro s l i
  induction s with
  | nil => rfl
  | cons kv rest ih =>
    by_cases hk : kv.1 = l
    · simp only [lookupLayer, hk, if_pos, setLayer]
      rw [stateSkeleton_cons, stateSkeleton_cons]
      rw [updateNth_map f (fun sp0 => (sp0.position, sp0.mass))
        (fun sp => by simp [hf sp]) i kv.2]
      simp [hk]
    · simp only [lookupLayer, hk, if_neg, not_false_iff, setLayer]
      rw [stateSkeleton_cons, stateSkeleton_cons, ih]

theorem stateSkeleton_updateAtGlobal {f : Sprite → Sprite}
    (hf : ∀ sp, (f sp).position = sp.position ∧ (f sp).mass = sp.mass) :
    ∀ (layers : List String) (s : SpriteState) (i : ℕ),
      stateSkeleton (updateAtGlobal s layers i f) = stateSkeleton s := by
  intro layers
  induction layers with
  | nil => intro s i; rfl
  | cons l ls ih =>
    intro s i
    unfold updateAtGlobal
    by_cases hi : i < (lookupLayer s l).length
    · simp only [hi, if_pos]
      exact stateSkeleton_setLayer_updateNth hf s l i
    · simp only [hi, if_neg, not_false_iff]
      exact ih s (i - (lookupLayer s l).length)

theorem allSprites_setLayer_updateNth (f : Sprite → Sprite) :
    ∀ (s : SpriteState) (l : String) (i : ℕ),
      allSprites (setLayer s l (updateNth f i (lookupLayer s l))) =
          allSprites s ∨
        ∃ A x B, allSprites s = A ++ x :: B ∧
          allSprites (setLayer s l (updateNth f i (lookupLayer s l))) =
            A ++ f x :: B := by
  intro s l i
  induction s with
  | nil => exact Or.inl rfl
  | cons kv rest ih =>
    by_cases hk : kv.1 = l
    · simp only [lookupLayer, hk, if_pos, setLayer]
      rw [allSprites_cons, allSprites_cons]
      rcases updateNth_decomp f i kv.2 with h | ⟨A, x, B, h1, h2⟩
      · exact Or.inl (by rw [h])
      · refine Or.inr ⟨A, x, B ++ allSprites rest, ?_, ?_⟩
        · rw [h1]; simp
        · rw [h2]; simp
    · simp only [lookupLayer, hk, if_neg, not_false_iff, setLayer]
      rw [allSprites_cons, allSprites_cons]
      rcases ih with h | ⟨A, x, B, h1, h2⟩
      · exact Or.inl (by rw [h])
      · refine Or.inr ⟨kv.2 ++ A, x, B, ?_, ?_⟩
        · rw [h1]; simp
        · rw [h2]; simp

theorem allSprites_updateAtGlobal (f : Sprite → Sprite) :
    ∀ (layers : List String) (s : SpriteState) (i : ℕ),
      allSprites (updateAtGlobal s layers i f) = allSprites s ∨
        ∃ A x B, allSprites s = A ++ x :: B ∧
          allSprites (updateAtGlobal s layers i f) = A ++ f x :: B := by
  intro layers
  induction layers with
  | nil => intro s i; exact Or.inl rfl
  | cons l ls ih =>
    intro s i
    unfold updateAtGlobal
    by_cases hi : i < (lookupLayer s l).length
    · simp only [hi, if_pos]
      exact allSprites_setLayer_updateNth f s l i
    · simp only [hi, if_neg, not_false_iff]
      exact ih s (i - (lookupLayer s l).length)

theorem flattenLayers_get?_updateAtGlobal (f : Sprite → Sprite) :
    ∀ (layers : List String) (s : SpriteState) (i : ℕ),
      (flattenLayers (updateAtGlobal s layers i f) layers).get? i =
        ((flattenLayers s layers).get? i).map f := by
  intro layers
  induction layers with
  | nil => intro s i; cases i <;> rfl
  | cons l ls ih =>
    intro s i
    unfold updateAtGlobal flattenLayers
    by_cases hi : i < (lookupLayer s l).length
    · simp only [hi, if_pos]
      have hne : lookupLayer s l ≠ [] := by
        intro hnil; rw [hnil] at hi; simp at hi
      rw [lookupLayer_setLayer_self s l _ hne]
      have h1 : (lookupLayer (setLayer s l (updateNth f i (lookupLayer s l)))
          l) = updateNth f i (lookupLayer s l) :=
        lookupLayer_setLayer_self s l _ hne
      rw [List.get?_append (by rw [updateNth_length]; exact hi),
        List.get?_append hi]
      exact updateNth_get?_self f i (lookupLayer s l)
    · simp only [hi, if_neg, not_false_iff]
      push_neg at hi
      have hlen : (lookupLayer (updateAtGlobal s ls
          (i - (lookupLayer s l).length) f) l).length =
          (lookupLayer s l).length :=
        lookupLayer_updateAtGlobal_length f ls s _ l
      rw [List.get?_append_right (by omega),
        List.get?_append_right hi, hlen]
      exact ih s (i - (lookupLayer s l).length)

theorem clickedIdx_eq_none_of_forall {pos : Vec2} :
    ∀ {l : List Sprite}, (∀ sp ∈ l, sp.contains_point pos = false) →
      clickedIdx pos l = none := by
  intro l
  induction l with
  | nil => intro _; rfl
  | cons s rest ih =>
    intro h
    have hr : clickedIdx pos rest = none :=
      ih (fun sp hm => h sp (List.mem_cons_of_mem s hm))
    have hs : s.contains_point pos = false := h s (List.mem_cons_self s rest)
    unfold clickedIdx
    rw [hr, hs]
    rfl

/-! ### Claim theorems: Select-Move -/

/-- C1: for every configured scale, a sprite with mass `m` at position
`p`, no noise configured and `instant_move = True`, a step whose
selection position resolves to that sprite (it is the reverse-scan
winner at index `i` of the candidate pool) and whose last two action
components are `t` sets that sprite's velocity to exactly
`(t - p) / m * scale`. -/
theorem C1_instant_move_velocity_exact (cfg : SelectMoveConfig)
    (s : SpriteState) (action noise : Action) (i : ℕ) (sp : Sprite)
    (hnoise : cfg.noise_scale = none)
    (hinstant : cfg.instant_move = true)
    (hclick : clickedIdx action.1 (flattenSprites cfg s) = some i)
    (hsp : (flattenSprites cfg s).get? i = some sp)
    (hmass : 0 < sp.mass) :
    ∃ s2, SelectMove.step cfg s action noise = .ok s2 ∧
      ((flattenSprites cfg s2).get? i).map (fun s0 => s0.velocity) =
        some ((action.2.1 - sp.position.1) / sp.mass * cfg.scale,
              (action.2.2 - sp.position.2) / sp.mass * cfg.scale) := by
  have hna := apply_noise_to_action_none hnoise action noise
  refine ⟨_, by rw [step_eq_of_noised hna, hclick], ?_⟩
  unfold flattenSprites
  rw [flattenLayers_get?_updateAtGlobal]
  unfold flattenSprites at hsp
  rw [hsp]
  simp only [Option.map_some']
  refine congrArg some ?_
  simp only [newVelocity, hinstant, if_pos, get_motion, vscale, vsub]
  refine Prod.ext ?_ ?_ <;> (show _ = _; ring)

/-- C2: for every state and action (with the noise configuration not
raising), if the noised selection position is contained by no sprite of
the candidate pool the step returns the state unchanged; and in every
call the step succeeds with the layer names, per-layer sprite counts,
positions and masses untouched and at most one sprite velocity
changed. -/
theorem C2_at_most_one_velocity_update (cfg : SelectMoveConfig)
    (s : SpriteState) (action noise na : Action)
    (hna : apply_noise_to_action cfg action noise = .ok na) :
    ((∀ sp ∈ flattenSprites cfg s, sp.contains_point na.1 = false) →
      SelectMove.step cfg s action noise = .ok s) ∧
    ∃ s2, SelectMove.step cfg s action noise = .ok s2 ∧
      stateSkeleton s2 = stateSkeleton s ∧
      (allVelocities s2 = allVelocities s ∨
        ∃ A v w B, allVelocities s = A ++ v :: B ∧
          allVelocities s2 = A ++ w :: B) := by
  constructor
  · intro hnone
    rw [step_eq_of_noised hna, clickedIdx_eq_none_of_forall hnone]
  · rw [step_eq_of_noised hna]
    cases hclick : clickedIdx na.1 (flattenSprites cfg s) with
    | none => exact ⟨s, rfl, rfl, Or.inl rfl⟩
    | some i =>
      refine ⟨_, rfl, ?_, ?_⟩
      · exact stateSkeleton_updateAtGlobal
          (f := fun sp0 => { sp0 with velocity := newVelocity cfg na.2 sp0 })
          (fun sp => ⟨rfl, rfl⟩) _ s i
      · rcases allSprites_updateAtGlobal
            (fun sp0 => { sp0 with velocity := newVelocity cfg na.2 sp0 })
            cfg.action_layers s i with h | ⟨A, x, B, h1, h2⟩
        · exact Or.inl (by unfold allVelocities; rw [h])
        · refine Or.inr ⟨A.map (fun s0 => s0.velocity), x.velocity,
            newVelocity cfg na.2 x, B.map (fun s0 => s0.velocity), ?_, ?_⟩
          · unfold allVelocities; rw [h1]; simp
          · unfold allVelocities; rw [h2]; simp

/-- C3: the sprite selected for mutation is found by flattening the
configured layers in order and scanning the flat pool in reverse: the
selected index `i` is a containing sprite with no containing sprite at
any larger index, it is exactly what `get_sprite_from_position`
returns, and the step mutates exactly that sprite; with no containing
sprite the step returns the state unchanged. -/
theorem C3_reverse_scan_selection (cfg : SelectMoveConfig)
    (s : SpriteState) (action noise na : Action)
    (hna : apply_noise_to_action cfg action noise = .ok na) :
    (clickedIdx na.1 (flattenSprites cfg s) = none →
      SelectMove.step cfg s action noise = .ok s ∧
      get_sprite_from_position na.1 (flattenSprites cfg s) = none) ∧
    ∀ i, clickedIdx na.1 (flattenSprites cfg s) = some i →
      ∃ sp, (flattenSprites cfg s).get? i = some sp ∧
        get_sprite_from_position na.1 (flattenSprites cfg s) = some sp ∧
        sp.contains_point na.1 = true ∧
        (∀ j sp2, i < j → (flattenSprites cfg s).get? j = some sp2 →
          sp2.contains_point na.1 = false) ∧
        SelectMove.step cfg s action noise = .ok (updateAtGlobal s
          cfg.action_layers i
          (fun sp0 => { sp0 with velocity := newVelocity cfg na.2 sp0 })) := by
  constructor
  · intro hclick
    refine ⟨by rw [step_eq_of_noised hna, hclick], ?_⟩
    rw [get_sprite_from_position_eq_clickedIdx, hclick]
    rfl
  · intro i hclick
    obtain ⟨sp, hget, hcp⟩ := clickedIdx_contains hclick
    refine ⟨sp, hget, ?_, hcp, clickedIdx_last hclick, ?_⟩
    · rw [get_sprite_from_position_eq_clickedIdx, hclick]
      simpa using hget
    · rw [step_eq_of_noised hna, hclick]

/-- C4: with `instant_move = False` and no noise configured, two
consecutive steps that each select the same sprite leave it with its
pre-click velocity plus the sum of the two motion contributions
`(t_k - p) / m * scale`. -/
theorem C4_two_clicks_accumulate (cfg : SelectMoveConfig)
    (s s1 : SpriteState) (a b noiseA noiseB : Action) (i : ℕ) (sp : Sprite)
    (hnoise : cfg.noise_scale = none)
    (hinstant : cfg.instant_move = false)
    (hmass : 0 < sp.mass)
    (hclick1 : clickedIdx a.1 (flattenSprites cfg s) = some i)
    (hsp : (flattenSprites cfg s).get? i = some sp)
    (hs1 : SelectMove.step cfg s a noiseA = .ok s1)
    (hclick2 : clickedIdx b.1 (flattenSprites cfg s1) = some i) :
    ∃ s2, SelectMove.step cfg s1 b noiseB = .ok s2 ∧
      ((flattenSprites cfg s2).get? i).map (fun s0 => s0.velocity) =
        some (sp.velocity.1 + (a.2.1 - sp.position.1) / sp.mass * cfg.scale
                + (b.2.1 - sp.position.1) / sp.mass * cfg.scale,
              sp.velocity.2 + (a.2.2 - sp.position.2) / sp.mass * cfg.scale
                + (b.2.2 - sp.position.2) / sp.mass * cfg.scale) := by
  have hnaA := apply_noise_to_action_none hnoise a noiseA
  have hnaB := apply_noise_to_action_none hnoise b noiseB
  rw [step_eq_of_noised hnaA, hclick1] at hs1
  have hs1v : s1 = updateAtGlobal s cfg.action_layers i
      (fun sp0 => { sp0 with velocity := newVelocity cfg a.2 sp0 }) := by
    cases hs1
    rfl
  have hget1 : (flattenSprites cfg s1).get? i =
      some { sp with velocity := newVelocity cfg a.2 sp } := by
    rw [hs1v]
    unfold flattenSprites
    rw [flattenLayers_get?_updateAtGlobal]
    unfold flattenSprites at hsp
    rw [hsp]
    rfl
  refine ⟨_, by rw [step_eq_of_noised hnaB, hclick2], ?_⟩
  unfold flattenSprites
  rw [flattenLayers_get?_updateAtGlobal]
  unfold flattenSprites at hget1
  rw [hget1]
  simp only [Option.map_some']
  refine congrArg some ?_
  simp only [newVelocity, hinstant, if_neg, Bool.false_eq_true,
    not_false_iff, get_motion, vscale, vsub, vadd]
  refine Prod.ext ?_ ?_ <;> (show _ = _; ring)

/-- C5 counterexample: with the noise scale configured as a numpy array
of four stddevs — the vector form the constructor docstring describes —
the truthiness test `if self._noise_scale:` raises `ValueError`, so
`step` does not complete without error. -/
theorem C5_counterexample_nparray_noise :
    SelectMove.step exampleCfgArrayNoise exampleState
      (((1 : ℚ)/2, (1 : ℚ)/2), ((1 : ℚ)/2, 1)) ((0, 0), (0, 0)) =
      .error "ValueError: truth value of an array is ambiguous" := rfl

/-- C5 (amended): with the noise scale configured as a nonzero scalar
or as a nonempty Python list of stddevs, the drawn noise sample is
added component-wise to the action before use — the result is the exact
sum, with no clamping back into `[0,1]` — and `step` completes without
error on every state. -/
theorem C5_noise_added_without_clamping (cfg : SelectMoveConfig)
    (action noise : Action)
    (h : (∃ q, cfg.noise_scale = some (.scalar q) ∧ q ≠ 0) ∨
      (∃ qs, cfg.noise_scale = some (.pylist qs) ∧ qs ≠ [])) :
    apply_noise_to_action cfg action noise =
      .ok ((action.1.1 + noise.1.1, action.1.2 + noise.1.2),
        (action.2.1 + noise.2.1, action.2.2 + noise.2.2)) ∧
    ∀ s, ∃ s2, SelectMove.step cfg s action noise = .ok s2 := by
  have hok : apply_noise_to_action cfg action noise =
      .ok (actionAdd action noise) := by
    rcases h with ⟨q, hq, hqne⟩ | ⟨qs, hqs, hqsne⟩
    · simp [apply_noise_to_action, noiseTruthy, hq, hqne, Bind.bind,
        Except.bind, Pure.pure, Except.pure]
    · simp [apply_noise_to_action, noiseTruthy, hqs, hqsne, Bind.bind,
        Except.bind, Pure.pure, Except.pure]
  refine ⟨by rw [hok]; rfl, ?_⟩
  intro s
  rw [step_eq_of_noised hok]
  cases hcl : clickedIdx (actionAdd action noise).1 (flattenSprites cfg s) with
  | none => exact ⟨s, rfl⟩
  | some i => exact ⟨_, rfl⟩

/-! ### Lemmas about the L2 reward rule -/

theorem L2_transition_fin (cfg : L2Config) (q : ℚ) (flag ov : Bool) :
    L2Reward.rewardTransition cfg ⟨.fin q, flag⟩ ov =
      (⟨.fin (q - 1), flag || ov⟩, decide (q - 1 < 0)) := by
  cases ov <;>
    simp [L2Reward.rewardTransition, FloatVal.sub1, FloatVal.ltZero]

theorem L2_transition_inf_contact (cfg : L2Config) (flag : Bool) :
    L2Reward.rewardTransition cfg ⟨.inf, flag⟩ true =
      (⟨cfg.reset_steps_after_contact.sub1, true⟩,
        cfg.reset_steps_after_contact.sub1.ltZero) := by
  simp [L2Reward.rewardTransition]

theorem L2_transition_inf_no_contact (cfg : L2Config) (flag : Bool) :
    L2Reward.rewardTransition cfg ⟨.inf, flag⟩ false =
      (⟨.inf, flag⟩, false) := by
  simp [L2Reward.rewardTransition, FloatVal.sub1, FloatVal.ltZero]

theorem L2_runFrom_length (cfg : L2Config) :
    ∀ (trace : List Bool) (st : L2TaskState),
      (L2Reward.runFrom cfg st trace).length = trace.length := by
  intro trace
  induction trace with
  | nil => intro st; rfl
  | cons ov rest ih => intro st; simp [L2Reward.runFrom, ih]

theorem L2_runFrom_fin (cfg : L2Config) :
    ∀ (trace : List Bool) (q : ℚ) (flag : Bool) (t : ℕ), t < trace.length →
      (L2Reward.runFrom cfg ⟨.fin q, flag⟩ trace).get? t =
        some (decide (q - ((t : ℚ) + 1) < 0)) := by
  intro trace
  induction trace with
  | nil => intro q flag t ht; simp at ht
  | cons ov rest ih =>
    intro q flag t ht
    unfold L2Reward.runFrom
    rw [L2_transition_fin]
    cases t with
    | zero =>
      show some (decide (q - 1 < 0)) = some (decide (q - (((0 : ℕ) : ℚ) + 1) < 0))
      norm_num
    | succ u =>
      have hu : u < rest.length := by simpa using Nat.lt_of_succ_lt_succ ht
      refine Eq.trans (ih (q - 1) (flag || ov) u hu) ?_
      refine congrArg some ?_
      rw [decide_eq_decide]
      push_cast
      constructor <;> intro <;> linarith

theorem L2_runFrom_first_contact (cfg : L2Config) (n : ℕ)
    (hn : cfg.reset_steps_after_contact = .fin (n : ℚ)) :
    ∀ (trace : List Bool) (flag : Bool) (c t : ℕ),
      trace.get? c = some true →
      (∀ j, j < c → trace.get? j = some false) →
      t < trace.length →
      (L2Reward.runFrom cfg ⟨.inf, flag⟩ trace).get? t =
        some (decide (c + n ≤ t)) := by
  intro trace
  induction trace with
  | nil => intro flag c t hc _ _; simp at hc
  | cons ov rest ih =>
    intro flag c t hc hpre ht
    cases c with
    | zero =>
      have hov : ov = true := by simpa using hc
      subst hov
      unfold L2Reward.runFrom
      rw [L2_transition_inf_contact, hn]
      cases t with
      | zero =>
        show some (decide ((n : ℚ) - 1 < 0)) = some (decide (0 + n ≤ 0))
        refine congrArg some ?_
        rw [decide_eq_decide]
        constructor
        · intro h
          have h1 : (n : ℚ) < 1 := by linarith
          have h2 : n < 1 := by exact_mod_cast h1
          omega
        · intro h
          have h1 : n = 0 := by omega
          subst h1
          norm_num
      | succ u =>
        have hu : u < rest.length := by simpa using Nat.lt_of_succ_lt_succ ht
        refine Eq.trans (L2_runFrom_fin cfg rest ((n : ℚ) - 1) true u hu) ?_
        refine congrArg some ?_
        rw [decide_eq_decide]
        constructor
        · intro h
          have h1 : (n : ℚ) < (u : ℚ) + 2 := by linarith
          have h2 : n < u + 2 := by exact_mod_cast h1
          omega
        · intro h
          have h1 : n ≤ u + 1 := by omega
          have h2 : (n : ℚ) ≤ (u : ℚ) + 1 := by exact_mod_cast h1
          linarith
    | succ c1 =>
      have hov : ov = false := by
        have := hpre 0 (Nat.succ_pos c1)
        simpa using this
      subst hov
      unfold L2Reward.runFrom
      rw [L2_transition_inf_no_contact]
      cases t with
      | zero =>
        show some false = some (decide (c1 + 1 + n ≤ 0))
        refine congrArg some ?_
        have hno : ¬ (c1 + 1 + n ≤ 0) := by omega
        simp [hno]
      | succ u =>
        have hu : u < rest.length := by simpa using Nat.lt_of_succ_lt_succ ht
        refine Eq.trans (ih flag c1 u (by simpa using hc)
          (fun j hj => by simpa using hpre (j + 1) (by omega)) hu) ?_
        refine congrArg some ?_
        rw [decide_eq_decide]
        omega

theorem L2_runFrom_no_contact_yet (cfg : L2Config) :
    ∀ (trace : List Bool) (flag : Bool) (t : ℕ),
      (∀ j, j ≤ t → trace.get? j ≠ some true) →
      (L2Reward.runFrom cfg ⟨.inf, flag⟩ trace).get? t ≠ some true := by
  intro trace
  induction trace with
  | nil => intro flag t _ h; simp [L2Reward.runFrom] at h
  | cons ov rest ih =>
    intro flag t hno
    have hov : ov = false := by
      have := hno 0 (Nat.zero_le t)
      cases ov
      · rfl
      · simp at this
    subst hov
    unfold L2Reward.runFrom
    rw [L2_transition_inf_no_contact]
    cases t with
    | zero => simp
    | succ u =>
      rw [List.get?_cons_succ]
      exact ih flag u (fun j hj => by
        simpa using hno (j + 1) (by omega))

theorem L2_runFrom_inf_config (cfg : L2Config)
    (h : cfg.reset_steps_after_contact = .inf) :
    ∀ (trace : List Bool) (flag : Bool) (t : ℕ),
      (L2Reward.runFrom cfg ⟨.inf, flag⟩ trace).get? t ≠ some true := by
  intro trace
  induction trace with
  | nil => intro flag t hcontra; simp [L2Reward.runFrom] at hcontra
  | cons ov rest ih =>
    intro flag t
    unfold L2Reward.runFrom
    cases ov
    · rw [L2_transition_inf_no_contact]
      cases t with
      | zero => simp
      | succ u => rw [List.get?_cons_succ]; exact ih flag u
    · rw [L2_transition_inf_contact, h]
      cases t with
      | zero => simp [FloatVal.sub1, FloatVal.ltZero]
      | succ u => rw [List.get?_cons_succ]; exact ih true u

/-! ### Claim theorems: L2 reward rule -/

/-- C6: over any run from `reset` with per-call contact trace `trace`,
with a finite `reset_steps_after_contact = n` and first contact at call
`c`, the call-`t` `should_reset` output is true exactly when
`c + n ≤ t` — it becomes true `n` reward calls after the first contact
call; before any contact has occurred it is never true; and with the
infinite default it is never true at all. -/
theorem C6_should_reset_timing (cfg : L2Config) (trace : List Bool) :
    (∀ n : ℕ, cfg.reset_steps_after_contact = .fin (n : ℚ) →
      ∀ c, trace.get? c = some true →
        (∀ j, j < c → trace.get? j = some false) →
        ∀ t, t < trace.length →
          (L2Reward.run cfg trace).get? t = some (decide (c + n ≤ t))) ∧
    (∀ t, (∀ j, j ≤ t → trace.get? j ≠ some true) →
      (L2Reward.run cfg trace).get? t ≠ some true) ∧
    (cfg.reset_steps_after_contact = .inf →
      ∀ t, (L2Reward.run cfg trace).get? t ≠ some true) := by
  refine ⟨?_, ?_, ?_⟩
  · intro n hn c hc hpre t ht
    exact L2_runFrom_first_contact cfg n hn trace false c t hc hpre ht
  · intro t hno
    exact L2_runFrom_no_contact_yet cfg trace false t hno
  · intro hinf t
    exact L2_runFrom_inf_config cfg hinf trace false t

/-- C7 counterexample: five reward calls without contact decrement the
counter five times, yet leave it exactly at infinity (the decrements do
not accumulate, since `inf - 1 = inf`); with
`reset_steps_after_contact = 1`, `should_reset` fires exactly one call
after the first contact — at call 6 of this run, not earlier — never
from accumulated pre-contact step count. -/
theorem C7_counterexample_unconditional_decrement_harmless :
    L2Reward.run exampleL2Cfg
        [false, false, false, false, false, true, false] =
      [false, false, false, false, false, false, true] ∧
    L2Reward.stateAfter exampleL2Cfg L2Reward.reset
        [false, false, false, false, false] =
      { steps_until_reset := .inf, has_made_contact := false } := by
  constructor
  · norm_num [L2Reward.run, L2Reward.runFrom, L2Reward.rewardTransition,
      L2Reward.reset, FloatVal.sub1, FloatVal.ltZero, exampleL2Cfg]
  · norm_num [L2Reward.stateAfter, L2Reward.rewardTransition,
      L2Reward.reset, FloatVal.sub1, FloatVal.ltZero, exampleL2Cfg]

/-- C7 (amended): the counter is initialized to infinity and the code
decrements it unconditionally on every reward call; but because
`inf - 1 = inf` the pre-contact decrements have no effect, so
`should_reset` can be true at call `t` only if the first contact
happened at some call `c` with `c + reset_steps_after_contact ≤ t` —
never from accumulated pre-contact step count. -/
theorem C7_no_reset_before_contact_plus_n (cfg : L2Config) (n : ℕ)
    (hn : cfg.reset_steps_after_contact = .fin (n : ℚ))
    (trace : List Bool) (t : ℕ)
    (hres : (L2Reward.run cfg trace).get? t = some true) :
    ∃ c, trace.get? c = some true ∧
      (∀ j, j < c → trace.get? j = some false) ∧ c + n ≤ t := by
  classical
  have hex : ∃ j, j ≤ t ∧ trace.get? j = some true := by
    by_contra hcon
    push_neg at hcon
    exact L2_runFrom_no_contact_yet cfg trace false t hcon hres
  have hex2 : ∃ j, trace.get? j = some true :=
    ⟨hex.choose, hex.choose_spec.2⟩
  have hlt : t < trace.length := by
    have h1 := (List.get?_eq_some.mp hres).choose
    rw [show L2Reward.run cfg trace =
      L2Reward.runFrom cfg L2Reward.reset trace from rfl,
      L2_runFrom_length cfg trace L2Reward.reset] at h1
    exact h1
  have hcle : Nat.find hex2 ≤ t :=
    le_trans (Nat.find_min' hex2 hex.choose_spec.2) hex.choose_spec.1
  have hpre : ∀ j, j < Nat.find hex2 → trace.get? j = some false := by
    intro j hj
    have hjlen : j < trace.length := by omega
    have hne := Nat.find_min hex2 hj
    rw [List.get?_eq_get hjlen] at hne ⊢
    cases hb : trace.get ⟨j, hjlen⟩
    · rfl
    · exact absurd (by rw [hb]) hne
  have hmain : (L2Reward.run cfg trace).get? t =
      some (decide (Nat.find hex2 + n ≤ t)) :=
    L2_runFrom_first_contact cfg n hn trace false
      (Nat.find hex2) t (Nat.find_spec hex2) hpre hlt
  rw [hres] at hmain
  refine ⟨Nat.find hex2, Nat.find_spec hex2, hpre, ?_⟩
  exact of_decide_eq_true (Option.some.inj hmain).symm

/-- C9: whenever a call of `L2Reward.reward` returns
`should_reset = True`, the scalar reward returned by that same call is
exactly 0, whatever shaped value the sprite distance produced. -/
theorem C9_zero_reward_on_reset (cfg : L2Config) (st : L2TaskState)
    (pos0 pos1 : Vec2) (overlaps : Bool)
    (h : (L2Reward.reward cfg st pos0 pos1 overlaps).1.2 = true) :
    (L2Reward.reward cfg st pos0 pos1 overlaps).1.1 = 0 := by
  simp only [L2Reward.reward] at h ⊢
  rw [h]
  norm_num

/-! ### Lemmas about the Gym wrapper -/

theorem hasImageKey_map_processEntry (obs : ObsDict) :
    hasImageKey (obs.map (fun kv => (kv.1, processEntry kv.2))) =
      hasImageKey obs := by
  unfold hasImageKey
  rw [List.any_map]
  rfl

theorem processObs_collapse (obs : ObsDict) (k : String) (v : NDArray)
    (rest : ObsDict) (hobs : obs = (k, v) :: rest)
    (h : obs.length = 1 ∨ (obs.length = 2 ∧ hasImageKey obs = true)) :
    GymWrapper.processObs obs = .single (processEntry v) := by
  unfold GymWrapper.processObs
  simp only [List.length_map, hasImageKey_map_processEntry]
  rw [if_pos h]
  subst hobs
  rfl

theorem processObs_dict (obs : ObsDict)
    (h : ¬(obs.length = 1 ∨ (obs.length = 2 ∧ hasImageKey obs = true))) :
    GymWrapper.processObs obs =
      .dict (obs.map (fun kv => (kv.1, processEntry kv.2))) := by
  unfold GymWrapper.processObs
  simp only [List.length_map, hasImageKey_map_processEntry]
  rw [if_neg h]

/-! ### Claim theorems: Gym wrapper -/

/-- C8 counterexample: with an observation dict of two keys neither of
which is `"image"`, `GymWrapper.step` does not return the dict of
coerced values — `obs.astype(np.float)` is applied to a dict and raises
`AttributeError`. -/
theorem C8_counterexample_two_keys_no_image :
    GymWrapper.step exampleTimeStepTwoKeys =
      .error "AttributeError: dict object has no attribute astype" := rfl

/-- C8 (amended): with exactly one observation key, or exactly two one
of which is `"image"`, `reset` returns the first-listed value after the
boolean-to-float32 coercion, and `step` returns that same value, cast
further to float64 when no `"image"` key is present; otherwise `reset`
returns the dict of coerced values, and `step` returns that dict only
when an `"image"` key is present — with no `"image"` key it raises
`AttributeError` instead. -/
theorem C8_obs_collapse_and_coercion (ts : TimeStep) :
    ((ts.observation.length = 1 ∨
        (ts.observation.length = 2 ∧ hasImageKey ts.observation = true)) →
      ∃ k v rest, ts.observation = (k, v) :: rest ∧
        GymWrapper.reset ts = .single (processEntry v) ∧
        GymWrapper.step ts = .ok
          (ProcObs.single (if hasImageKey ts.observation then processEntry v
            else astypeFloat (processEntry v)),
           rewardOr0 ts.reward, ts.isLast, ts.discount)) ∧
    (¬(ts.observation.length = 1 ∨
        (ts.observation.length = 2 ∧ hasImageKey ts.observation = true)) →
      GymWrapper.reset ts =
        .dict (ts.observation.map (fun kv => (kv.1, processEntry kv.2))) ∧
      (hasImageKey ts.observation = true →
        GymWrapper.step ts = .ok
          (.dict (ts.observation.map (fun kv => (kv.1, processEntry kv.2))),
           rewardOr0 ts.reward, ts.isLast, ts.discount)) ∧
      (hasImageKey ts.observation = false →
        GymWrapper.step ts =
          .error "AttributeError: dict object has no attribute astype")) := by
  constructor
  · intro h
    obtain ⟨k, v, rest, hobs⟩ : ∃ k v rest, ts.observation = (k, v) :: rest := by
      cases hcase : ts.observation with
      | nil => rw [hcase] at h; simp at h
      | cons kv tl => exact ⟨kv.1, kv.2, tl, rfl⟩
    have hproc := processObs_collapse ts.observation k v rest hobs h
    refine ⟨k, v, rest, hobs, hproc, ?_⟩
    unfold GymWrapper.step
    rw [hproc]
    cases himg : hasImageKey ts.observation with
    | true => simp [himg]
    | false => simp [himg]
  · intro h
    have hproc := processObs_dict ts.observation h
    refine ⟨hproc, ?_, ?_⟩
    · intro himg
      unfold GymWrapper.step
      rw [hproc]
      simp [himg]
    · intro himg
      unfold GymWrapper.step
      rw [hproc]
      simp [himg]

/-- C10: a falsy time-step reward — `None`, `0.0` or `0` — is replaced
by `time_step.reward or 0` with the integer literal `0`, and that is
the reward component `step` returns. -/
theorem C10_falsy_reward_returns_int_zero (ts : TimeStep)
    (h : ts.reward = .none ∨ ts.reward = .float 0 ∨ ts.reward = .int 0) :
    rewardOr0 ts.reward = .int 0 ∧
    ∀ obs r done disc, GymWrapper.step ts = .ok (obs, r, done, disc) →
      r = .int 0 := by
  have h0 : rewardOr0 ts.reward = .int 0 := by
    rcases h with h | h | h <;> rw [h] <;> simp [rewardOr0]
  refine ⟨h0, ?_⟩
  intro obs r done disc hstep
  unfold GymWrapper.step at hstep
  rw [h0] at hstep
  cases himg : hasImageKey ts.observation with
  | true =>
    rw [himg] at hstep
    simp only [if_pos] at hstep
    have := Except.ok.inj hstep
    exact ((Prod.mk.injEq _ _ _ _).mp
      ((Prod.mk.injEq _ _ _ _).mp this).2).1.symm
  | false =>
    rw [himg] at hstep
    simp only [Bool.false_eq_true, if_neg, not_false_iff] at hstep
    cases hproc : GymWrapper.processObs ts.observation with
    | single a =>
      rw [hproc] at hstep
      have := Except.ok.inj hstep
      exact ((Prod.mk.injEq _ _ _ _).mp
        ((Prod.mk.injEq _ _ _ _).mp this).2).1.symm
    | dict d =>
      rw [hproc] at hstep
      exact absurd hstep (by simp)

/-! ### Witnesses: each applies its claim theorem at a concrete input -/

/-- Witness for C1 at the spec's example: `layers = ["agent"]`, one
sprite at `(0.5, 0.5)` of mass 1, `action = [0.5, 0.5, 0.5, 1.0]`,
`scale = 1`: resulting velocity `(0, 0.5)`. -/
theorem C1_instant_move_velocity_exact_witness :
    exampleCfgInstant.noise_scale = none ∧
    exampleCfgInstant.instant_move = true ∧
    clickedIdx ((1 : ℚ)/2, (1 : ℚ)/2)
      (flattenSprites exampleCfgInstant exampleState) = some 0 ∧
    (flattenSprites exampleCfgInstant exampleState).get? 0 =
      some exampleSprite ∧
    (0 : ℚ) < exampleSprite.mass ∧
    ∃ s2, SelectMove.step exampleCfgInstant exampleState
        (((1 : ℚ)/2, (1 : ℚ)/2), ((1 : ℚ)/2, 1)) ((0, 0), (0, 0)) =
        .ok s2 ∧
      ((flattenSprites exampleCfgInstant s2).get? 0).map
        (fun s0 => s0.velocity) = some (0, (1 : ℚ)/2) := by
  have hclick : clickedIdx ((1 : ℚ)/2, (1 : ℚ)/2)
      (flattenSprites exampleCfgInstant exampleState) = some 0 := by
    simp [clickedIdx, flattenSprites, flattenLayers, lookupLayer,
      exampleState, exampleSprite, exampleCfgInstant]
  have hmass : (0 : ℚ) < exampleSprite.mass := by norm_num [exampleSprite]
  obtain ⟨s2, hs2, hv⟩ := C1_instant_move_velocity_exact exampleCfgInstant
    exampleState (((1 : ℚ)/2, (1 : ℚ)/2), ((1 : ℚ)/2, 1)) ((0, 0), (0, 0))
    0 exampleSprite rfl rfl hclick rfl hmass
  refine ⟨rfl, rfl, hclick, rfl, hmass, s2, hs2, ?_⟩
  rw [hv]
  norm_num [exampleSprite, exampleCfgInstant]

/-- Witness for C2: clicking `(0, 0)`, a position contained by no
sprite, leaves the example state unchanged; the general conclusion is
instantiated at the same input. -/
theorem C2_at_most_one_velocity_update_witness :
    apply_noise_to_action exampleCfgInstant ((0, 0), (0, 0))
      ((0, 0), (0, 0)) = .ok ((0, 0), (0, 0)) ∧
    (((∀ sp ∈ flattenSprites exampleCfgInstant exampleState,
        sp.contains_point ((0 : ℚ), (0 : ℚ)) = false) →
      SelectMove.step exampleCfgInstant exampleState ((0, 0), (0, 0))
        ((0, 0), (0, 0)) = .ok exampleState) ∧
    ∃ s2, SelectMove.step exampleCfgInstant exampleState ((0, 0), (0, 0))
        ((0, 0), (0, 0)) = .ok s2 ∧
      stateSkeleton s2 = stateSkeleton exampleState ∧
      (allVelocities s2 = allVelocities exampleState ∨
        ∃ A v w B, allVelocities exampleState = A ++ v :: B ∧
          allVelocities s2 = A ++ w :: B)) :=
  ⟨rfl, C2_at_most_one_velocity_update exampleCfgInstant exampleState
    ((0, 0), (0, 0)) ((0, 0), (0, 0)) ((0, 0), (0, 0)) rfl⟩

/-- Witness for C3: with two overlapping sprites both containing
`(0.5, 0.5)`, the reverse scan selects index 1 — the sprite appearing
latest in the flattened pool. -/
theorem C3_reverse_scan_selection_witness :
    apply_noise_to_action exampleCfgInstant
      (((1 : ℚ)/2, (1 : ℚ)/2), (0, 0)) ((0, 0), (0, 0)) =
      .ok (((1 : ℚ)/2, (1 : ℚ)/2), (0, 0)) ∧
    clickedIdx ((1 : ℚ)/2, (1 : ℚ)/2)
      (flattenSprites exampleCfgInstant exampleStateOverlap) = some 1 ∧
    ∃ sp, (flattenSprites exampleCfgInstant exampleStateOverlap).get? 1 =
        some sp ∧
      get_sprite_from_position ((1 : ℚ)/2, (1 : ℚ)/2)
        (flattenSprites exampleCfgInstant exampleStateOverlap) = some sp ∧
      sp.contains_point ((1 : ℚ)/2, (1 : ℚ)/2) = true ∧
      (∀ j sp2, 1 < j →
        (flattenSprites exampleCfgInstant exampleStateOverlap).get? j =
          some sp2 →
        sp2.contains_point ((1 : ℚ)/2, (1 : ℚ)/2) = false) ∧
      SelectMove.step exampleCfgInstant exampleStateOverlap
          (((1 : ℚ)/2, (1 : ℚ)/2), (0, 0)) ((0, 0), (0, 0)) =
        .ok (updateAtGlobal exampleStateOverlap
          exampleCfgInstant.action_layers 1
          (fun sp0 => { sp0 with
            velocity := newVelocity exampleCfgInstant (0, 0) sp0 })) := by
  have hclick : clickedIdx ((1 : ℚ)/2, (1 : ℚ)/2)
      (flattenSprites exampleCfgInstant exampleStateOverlap) = some 1 := by
    simp [clickedIdx, flattenSprites, flattenLayers, lookupLayer,
      exampleStateOverlap, exampleSprite, exampleSpriteBig, exampleCfgInstant]
  exact ⟨rfl, hclick, (C3_reverse_scan_selection exampleCfgInstant
    exampleStateOverlap (((1 : ℚ)/2, (1 : ℚ)/2), (0, 0)) ((0, 0), (0, 0))
    (((1 : ℚ)/2, (1 : ℚ)/2), (0, 0)) rfl).2 1 hclick⟩

/-- Witness for C4: two accumulating clicks on the `(0.5, 0.5)` sprite,
each with target `(1, 1)`, leave it with velocity
`(0, 0) + (1/2, 1/2) + (1/2, 1/2) = (1, 1)`. -/
theorem C4_two_clicks_accumulate_witness :
    exampleCfgAccum.noise_scale = none ∧
    exampleCfgAccum.instant_move = false ∧
    (0 : ℚ) < exampleSprite.mass ∧
    clickedIdx ((1 : ℚ)/2, (1 : ℚ)/2)
      (flattenSprites exampleCfgAccum exampleState) = some 0 ∧
    (flattenSprites exampleCfgAccum exampleState).get? 0 =
      some exampleSprite ∧
    SelectMove.step exampleCfgAccum exampleState
      (((1 : ℚ)/2, (1 : ℚ)/2), (1, 1)) ((0, 0), (0, 0)) =
      .ok exampleStateMoved ∧
    clickedIdx ((1 : ℚ)/2, (1 : ℚ)/2)
      (flattenSprites exampleCfgAccum exampleStateMoved) = some 0 ∧
    ∃ s2, SelectMove.step exampleCfgAccum exampleStateMoved
        (((1 : ℚ)/2, (1 : ℚ)/2), (1, 1)) ((0, 0), (0, 0)) = .ok s2 ∧
      ((flattenSprites exampleCfgAccum s2).get? 0).map
        (fun s0 => s0.velocity) = some ((1 : ℚ), (1 : ℚ)) := by
  have hclick1 : clickedIdx ((1 : ℚ)/2, (1 : ℚ)/2)
      (flattenSprites exampleCfgAccum exampleState) = some 0 := by
    simp [clickedIdx, flattenSprites, flattenLayers, lookupLayer,
      exampleState, exampleSprite, exampleCfgAccum]
  have hclick2 : clickedIdx ((1 : ℚ)/2, (1 : ℚ)/2)
      (flattenSprites exampleCfgAccum exampleStateMoved) = some 0 := by
    simp [clickedIdx, flattenSprites, flattenLayers, lookupLayer,
      exampleStateMoved, exampleSprite, exampleCfgAccum]
  have hmass : (0 : ℚ) < exampleSprite.mass := by norm_num [exampleSprite]
  have hs1 : SelectMove.step exampleCfgAccum exampleState
      (((1 : ℚ)/2, (1 : ℚ)/2), (1, 1)) ((0, 0), (0, 0)) =
      .ok exampleStateMoved := by
    simp [SelectMove.step, apply_noise_to_action, noiseTruthy,
      exampleCfgAccum, Bind.bind, Except.bind, Pure.pure, Except.pure,
      clickedIdx, flattenSprites, flattenLayers, lookupLayer, exampleState,
      exampleSprite, exampleStateMoved, updateAtGlobal, setLayer, updateNth,
      newVelocity, get_motion, vadd, vscale, vsub]
    norm_num
  obtain ⟨s2, h1, h2⟩ := C4_two_clicks_accumulate exampleCfgAccum
    exampleState exampleStateMoved (((1 : ℚ)/2, (1 : ℚ)/2), (1, 1))
    (((1 : ℚ)/2, (1 : ℚ)/2), (1, 1)) ((0, 0), (0, 0)) ((0, 0), (0, 0))
    0 exampleSprite rfl rfl hmass hclick1 rfl hs1 hclick2
  refine ⟨rfl, rfl, hmass, hclick1, rfl, hs1, hclick2, s2, h1, ?_⟩
  rw [h2]
  norm_num [exampleSprite, exampleCfgAccum]

/-- Witness for the amended C5: a scalar noise scale of 1/10 is truthy,
and noising the action `(1,1,1,1)` with the sample `(1,1,1,1)` yields
exactly `(2,2,2,2)` — outside `[0,1]`, unclamped — while `step`
completes on every state. -/
theorem C5_noise_added_without_clamping_witness :
    ((∃ q, exampleCfgScalarNoise.noise_scale = some (.scalar q) ∧ q ≠ 0) ∨
      (∃ qs, exampleCfgScalarNoise.noise_scale = some (.pylist qs) ∧
        qs ≠ [])) ∧
    apply_noise_to_action exampleCfgScalarNoise ((1, 1), (1, 1))
      ((1, 1), (1, 1)) = .ok ((2, 2), (2, 2)) ∧
    ∀ s, ∃ s2, SelectMove.step exampleCfgScalarNoise s ((1, 1), (1, 1))
      ((1, 1), (1, 1)) = .ok s2 := by
  have h : (∃ q, exampleCfgScalarNoise.noise_scale = some (.scalar q) ∧
      q ≠ 0) ∨
      (∃ qs, exampleCfgScalarNoise.noise_scale = some (.pylist qs) ∧
        qs ≠ []) :=
    Or.inl ⟨(1 : ℚ)/10, rfl, by norm_num⟩
  have h2 := C5_noise_added_without_clamping exampleCfgScalarNoise
    ((1, 1), (1, 1)) ((1, 1), (1, 1)) h
  exact ⟨h, by rw [h2.1]; norm_num, h2.2⟩

/-- Witness for C6 with `reset_steps_after_contact = 1` and first
contact at call 1 of the trace `[no, contact, no, no]`: `should_reset`
is false at call 1 and true at call 2. -/
theorem C6_should_reset_timing_witness :
    exampleL2Cfg.reset_steps_after_contact = .fin ((1 : ℕ) : ℚ) ∧
    [false, true, false, false].get? 1 = some true ∧
    (∀ j, j < 1 → [false, true, false, false].get? j = some false) ∧
    (L2Reward.run exampleL2Cfg [false, true, false, false]).get? 1 =
      some false ∧
    (L2Reward.run exampleL2Cfg [false, true, false, false]).get? 2 =
      some true := by
  have hn : exampleL2Cfg.reset_steps_after_contact = .fin ((1 : ℕ) : ℚ) := by
    norm_num [exampleL2Cfg]
  have hpre : ∀ j, j < 1 → [false, true, false, false].get? j =
      some false := by
    intro j hj
    have hj0 : j = 0 := by omega
    subst hj0
    rfl
  have hmain := (C6_should_reset_timing exampleL2Cfg
    [false, true, false, false]).1 1 hn 1 rfl hpre
  refine ⟨hn, rfl, hpre, ?_, ?_⟩
  · rw [hmain 1 (by norm_num)]
    simp
  · rw [hmain 2 (by norm_num)]
    simp

/-- Witness for the amended C7: on the trace `[contact, no]` the output
`should_reset` is true at call 1, and the theorem locates the first
contact at call 0 with `0 + 1 ≤ 1` calls elapsed. -/
theorem C7_no_reset_before_contact_plus_n_witness :
    exampleL2Cfg.reset_steps_after_contact = .fin ((1 : ℕ) : ℚ) ∧
    (L2Reward.run exampleL2Cfg [true, false]).get? 1 = some true ∧
    ∃ c, [true, false].get? c = some true ∧
      (∀ j, j < c → [true, false].get? j = some false) ∧ c + 1 ≤ 1 := by
  have hn : exampleL2Cfg.reset_steps_after_contact = .fin ((1 : ℕ) : ℚ) := by
    norm_num [exampleL2Cfg]
  have hres : (L2Reward.run exampleL2Cfg [true, false]).get? 1 =
      some true := by
    norm_num [L2Reward.run, L2Reward.runFrom, L2Reward.rewardTransition,
      L2Reward.reset, exampleL2Cfg, FloatVal.sub1, FloatVal.ltZero]
  exact ⟨hn, hres,
    C7_no_reset_before_contact_plus_n exampleL2Cfg 1 hn [true, false] 1 hres⟩

/-- Witness for C9: with `reset_steps_after_contact = 0` a first
contact makes that same call return `should_reset = True` and reward
exactly 0. -/
theorem C9_zero_reward_on_reset_witness :
    (L2Reward.reward exampleL2CfgZero L2Reward.reset (0, 0) (1, 0)
      true).1.2 = true ∧
    (L2Reward.reward exampleL2CfgZero L2Reward.reset (0, 0) (1, 0)
      true).1.1 = 0 := by
  have h : (L2Reward.reward exampleL2CfgZero L2Reward.reset (0, 0) (1, 0)
      true).1.2 = true := by
    simp [L2Reward.reward, L2Reward.rewardTransition, L2Reward.reset,
      exampleL2CfgZero, FloatVal.sub1, FloatVal.ltZero]
  exact ⟨h, C9_zero_reward_on_reset exampleL2CfgZero L2Reward.reset
    (0, 0) (1, 0) true h⟩

/-- Witness for the amended C8: a single boolean observation key
collapses — `reset` returns the float32-coerced array, and `step`
(there being no `"image"` key) returns it cast to float64. -/
theorem C8_obs_collapse_and_coercion_witness :
    (exampleTimeStepSingle.observation.length = 1 ∨
      (exampleTimeStepSingle.observation.length = 2 ∧
        hasImageKey exampleTimeStepSingle.observation = true)) ∧
    ∃ k v rest, exampleTimeStepSingle.observation = (k, v) :: rest ∧
      GymWrapper.reset exampleTimeStepSingle = .single (processEntry v) ∧
      GymWrapper.step exampleTimeStepSingle = .ok
        (ProcObs.single
          (if hasImageKey exampleTimeStepSingle.observation then
            processEntry v
          else astypeFloat (processEntry v)),
         rewardOr0 exampleTimeStepSingle.reward,
         exampleTimeStepSingle.isLast, exampleTimeStepSingle.discount) := by
  have h : exampleTimeStepSingle.observation.length = 1 ∨
      (exampleTimeStepSingle.observation.length = 2 ∧
        hasImageKey exampleTimeStepSingle.observation = true) := Or.inl rfl
  exact ⟨h, (C8_obs_collapse_and_coercion exampleTimeStepSingle).1 h⟩

/-- Witness for C10: a `0.0` float reward is falsy, so `step` reports
the integer `0`. -/
theorem C10_falsy_reward_returns_int_zero_witness :
    (exampleTimeStepSingle.reward = .none ∨
      exampleTimeStepSingle.reward = .float 0 ∨
      exampleTimeStepSingle.reward = .int 0) ∧
    rewardOr0 exampleTimeStepSingle.reward = .int 0 ∧
    ∀ obs r done disc, GymWrapper.step exampleTimeStepSingle =
      .ok (obs, r, done, disc) → r = .int 0 := by
  have h : exampleTimeStepSingle.reward = .none ∨
      exampleTimeStepSingle.reward = .float 0 ∨
      exampleTimeStepSingle.reward = .int 0 := Or.inr (Or.inl rfl)
  exact ⟨h, C10_falsy_reward_returns_int_zero exampleTimeStepSingle h⟩

end Moog
